import Mathlib

/-!
Verification of the BAI2 bank-statement pipeline (rule-driven transformation,
validation and field encryption) against its natural-language specification.

The Python sources are embedded shallowly:

* `src/src/bai_pipeline/transformer.py` → `create_base_row`, `apply_default_values`,
  `buildBalanceRow`, `buildTxRow`, `transform_bai_to_rows`;
* `src/src/bai_pipeline/validator.py` → `validate_rows`;
* `src/main.py` → `get_schema_for_table`, `resolve_mappings` (lines 87-93),
  `buildCodeMap` (the `code_map` dict comprehension);
* `src/encrypt.py` → `find_key_for_customer`, `encrypt_value`, `encrypt_row`
  (instrumented with a key-lookup counter to settle the caching claim).

Python dictionaries become association lists with in-place update semantics
(`rset`), `dict.get`'s `None` default becomes `rget` returning `Value.null`,
and Python truthiness becomes `Value.truthy`.
-/

set_option autoImplicit false

namespace BaiPipeline

/-- A Python value stored in a row or configuration: `None`, a string, or an
integer (amounts). -/
inductive Value where
  | null
  | vstr (s : String)
  | vint (n : Int)
deriving DecidableEq, Repr

/-- Python truthiness of a `Value` (`None`, `""` and `0` are falsy). -/
def Value.truthy : Value → Bool
  | .null => false
  | .vstr s => s ≠ ""
  | .vint n => n ≠ 0

/-- Python `str()` of a `Value`. -/
def Value.strOf : Value → String
  | .null => "None"
  | .vstr s => s
  | .vint n => toString n

/-- A destination row: a Python dict from column name to value, modelled as an
association list in insertion order. -/
abbrev Row := List (String × Value)

/-- `row.get(k)` returning `none` when the key is absent. -/
def rget? : Row → String → Option Value
  | [], _ => none
  | p :: r, k => if p.1 = k then some p.2 else rget? r k

/-- `row.get(k)` with Python's `None` default: absent keys read as `null`. -/
def rget (r : Row) (k : String) : Value :=
  (rget? r k).getD .null

/-- `k in row`. -/
def rhas (r : Row) (k : String) : Bool :=
  (rget? r k).isSome

/-- `row[k] = v`: replace in place when the key exists, else append. -/
def rset : Row → String → Value → Row
  | [], k, v => [(k, v)]
  | p :: r, k, v => if p.1 = k then (k, v) :: r else p :: rset r k v

/-- `row.pop(k, None)`: remove a key. -/
def rdel (r : Row) (k : String) : Row :=
  r.filter (fun p => p.1 ≠ k)

/-- One column of a destination-table schema
(`{ name, required?, sensitive?, default_value? }` in `bq_mapping.json`);
`default_value = none` models the JSON key being absent. -/
structure ColumnSpec where
  name : String
  required : Bool := false
  sensitive : Bool := false
  default_value : Option Value := none
deriving DecidableEq, Repr

/-- One mapping rule `{ bai_code, bai_field, bq_column, table }`. -/
structure MappingRule where
  bai_code : String
  bai_field : String
  bq_column : String
  table : String
deriving DecidableEq, Repr

/-- One entry of the config's `mappings` list: a bank with its rule set. -/
structure BankMapping where
  bank_id : String
  mappings : List MappingRule
deriving DecidableEq, Repr

/-- The loaded mapping configuration (`bq_mapping.json`). -/
structure Config where
  mappings : List BankMapping := []
  bank_id_default_typecodes : List MappingRule := []
  common_fields_schema : List ColumnSpec := []
  balance_table_schema : List ColumnSpec := []
  transactions_table_schema : List ColumnSpec := []
deriving DecidableEq, Repr

/-! ### Statement hierarchy

Modelled from the spec: `src/src/bai_parser/models.py` is not under `src/`;
§3 of the spec fixes the attributes each level exposes
(File → Group (`as_of_date`) → Account (`account_number`, `currency`,
`summary_items`) → Transaction (`type_code`, `posting_date`, `value_date`,
amount and descriptive fields)).  Dynamic `getattr` access on summary items
and transactions becomes a field association list read with a `null` default.
-/

/-- A date object; `iso` is what `.isoformat()` returns. -/
structure DateT where
  iso : String
deriving DecidableEq, Repr

/-- A type code: its string `code` and the debit/credit classification
exposed as `type_code.transaction.value` in the source. -/
structure TypeCode where
  code : String
  transaction_value : String
deriving DecidableEq, Repr

/-- An account-summary item: optional type code plus its named data fields. -/
structure SummaryItem where
  type_code : Option TypeCode := none
  fields : List (String × Value) := []
deriving DecidableEq, Repr

/-- A transaction detail: type code, optional own dates, named data fields. -/
structure Transaction where
  type_code : TypeCode
  posting_date : Option DateT := none
  value_date : Option DateT := none
  fields : List (String × Value) := []
deriving DecidableEq, Repr

/-- An account header: account number, optional currency, summary items. -/
structure AccountHeader where
  customer_account_number : String
  currency : Option String := none
  summary_items : List SummaryItem := []
deriving DecidableEq, Repr

/-- An account: its header and its transaction children. -/
structure Account where
  header : AccountHeader
  children : List Transaction := []
deriving DecidableEq, Repr

/-- A group header: the statement date, absent when the group is malformed. -/
structure GroupHeader where
  as_of_date : Option DateT := none
deriving DecidableEq, Repr

/-- A statement group: header and account children. -/
structure Group where
  header : GroupHeader
  children : List Account := []
deriving DecidableEq, Repr

/-- The parsed statement file: its group children. -/
structure Bai2File where
  children : List Group := []
deriving DecidableEq, Repr

/-- `getattr(entity, field, None)` over an entity's named data fields. -/
def getField (fields : List (String × Value)) (f : String) : Value :=
  ((fields.find? (fun p => p.1 = f)).map (fun p => p.2)).getD .null

/-- Python `x or " "` applied to an optional currency string. -/
def pyOrSpace : Option String → String
  | some s => if s = "" then " " else s
  | none => " "

/-! ### Settings (`src/src/bai_pipeline/settings.py`, documented defaults) -/

def BALANCE_TABLE_ID : String := "balance"

def TRANSACTIONS_TABLE_ID : String := "transactions"

/-! ### Mapping resolution and schema lookup -/

/-- Insert into a Python dict modelled as an association list: an existing key
keeps its position and takes the new value, a new key is appended. -/
def dictInsert (m : List (String × MappingRule)) (k : String) (v : MappingRule) :
    List (String × MappingRule) :=
  if m.any (fun p => p.1 = k) then m.map (fun p => if p.1 = k then (k, v) else p)
  else m ++ [(k, v)]

/-- `code_map = {m["bai_code"]: m for m in mappings}` (`src/main.py` line 95):
last rule with a duplicated code wins, first occurrence keeps its position. -/
def buildCodeMap (rules : List MappingRule) : List (String × MappingRule) :=
  rules.foldl (fun m r => dictInsert m r.bai_code r) []

/-- `code_map[code]` / `code in code_map`. -/
def codeMapLookup (cm : List (String × MappingRule)) (code : String) : Option MappingRule :=
  (cm.find? (fun p => p.1 = code)).map (fun p => p.2)

/-- `get_schema_for_table` from `src/main.py` lines 39-46: common fields plus
the table-specific fields, where an unrecognized table name contributes no
table-specific fields (the function returns normally, it does not raise). -/
def get_schema_for_table (config : Config) (table_name : String) : List ColumnSpec :=
  let table_fields :=
    if table_name = "balance" then config.balance_table_schema
    else if table_name = "transactions" then config.transactions_table_schema
    else []
  config.common_fields_schema ++ table_fields

/-- Configuration errors (`ConfigError` of the spec's taxonomy; the source
raises `ValueError`). -/
inductive ConfigError where
  | unknownTable (name : String)
  | noMappings (bank_id : String)
deriving DecidableEq, Repr

/-- Modelled from the spec: `config_loader.get_table_schema` (module
`src/bai_pipeline/config_loader.py` is not under `src/`).  §4.2: returns
`common_schema ++ table_schema[name]`, fails with `ConfigError` for an
unrecognized table name; `none` models that failure. -/
def get_table_schema (config : Config) (name : String) : Option (List ColumnSpec) :=
  if name = "balance" then some (config.common_fields_schema ++ config.balance_table_schema)
  else if name = "transactions" then
    some (config.common_fields_schema ++ config.transactions_table_schema)
  else none

/-- The spec's own description of SchemaCatalog (§4.2), used only to compare
against `get_schema_for_table` from `src/main.py`: `common ++ specific`,
`ConfigError` for an unrecognized table name. -/
def get_schema_for_table_spec (config : Config) (name : String) :
    Except ConfigError (List ColumnSpec) :=
  match get_table_schema config name with
  | some s => .ok s
  | none => .error (.unknownTable name)

/-- `src/main.py` lines 87-93: the bank-specific rule set when a config entry
for the bank exists (first match, even if its rule list is empty), else the
default rule set; raise when the chosen list is empty. -/
def resolve_mappings (config : Config) (bank_id : String) :
    Except ConfigError (List MappingRule) :=
  let bank_config := config.mappings.find? (fun m => m.bank_id = bank_id)
  let mappings :=
    match bank_config with
    | some b => b.mappings
    | none => config.bank_id_default_typecodes
  if mappings.isEmpty then .error (.noMappings bank_id) else .ok mappings

/-! ### Transformer (`src/src/bai_pipeline/transformer.py`) -/

/-- `_apply_default_values`: for each schema column that declares a
`default_value`, fill the row's column when it currently reads as `None`. -/
def apply_default_values (row : Row) (schema : List ColumnSpec) : Row :=
  schema.foldl
    (fun r col =>
      match col.default_value with
      | some dv => if rget r col.name = .null then rset r col.name dv else r
      | none => r)
    row

/-- `_create_base_row`: seed identity fields, then the table-specific fields
including the `_target_table` metadata key. -/
def create_base_row (customer_id : String) (h : AccountHeader) (group_date : DateT)
    (table_type : String) : Row :=
  let base : Row :=
    [("organisation_biz_id", .vstr customer_id),
     ("division_biz_id", .vstr customer_id),
     ("account_number", .vstr h.customer_account_number),
     ("customer_id", .vstr customer_id)]
  if table_type = "balance" then
    base ++
      [("balance_date", .vstr group_date.iso),
       ("currency", .vstr (pyOrSpace h.currency)),
       ("bsb", .vstr " "),
       ("financial_institute", .vstr ""),
       ("_target_table", .vstr BALANCE_TABLE_ID)]
  else if table_type = "transactions" then
    base ++
      [("currency_code", .vstr (pyOrSpace h.currency)),
       ("_target_table", .vstr TRANSACTIONS_TABLE_ID)]
  else base

/-- The guard of the balance summary loop: the rule applied for a summary
item, when its type code is present, truthy, found in the code map, and the
found rule targets the balance table. -/
def balanceRuleFor (cm : List (String × MappingRule)) (s : SummaryItem) :
    Option MappingRule :=
  match s.type_code with
  | none => none
  | some tc =>
    if tc.code = "" then none
    else
      match codeMapLookup cm tc.code with
      | some rule => if rule.table = "balance" then some rule else none
      | none => none

/-- The balance row built for one account (transformer lines 59-67): base row,
schema defaults, then one assignment per matching summary item. -/
def buildBalanceRow (customer_id : String) (h : AccountHeader) (gd : DateT)
    (balSchema : List ColumnSpec) (cm : List (String × MappingRule)) : Row :=
  let row := apply_default_values (create_base_row customer_id h gd "balance") balSchema
  h.summary_items.foldl
    (fun r s =>
      match balanceRuleFor cm s with
      | some rule => rset r rule.bq_column (getField s.fields rule.bai_field)
      | none => r)
    row

/-- One step of the transaction rule loop (transformer lines 74-81): skip
rules for other tables and rules whose source field reads `None`; otherwise
assign the destination column, and when that column is `transaction_amount`
derive the indicator from the transaction's debit/credit type code. -/
def txRuleStep (tx : Transaction) (r : Row) (p : String × MappingRule) : Row :=
  let rule := p.2
  if rule.table ≠ "transactions" then r
  else
    let value := getField tx.fields rule.bai_field
    if value = .null then r
    else
      let r := rset r rule.bq_column value
      if rule.bq_column = "transaction_amount" then
        rset r "debit_credit_indicator"
          (.vstr (if tx.type_code.transaction_value = "debit" then "D" else "C"))
      else r

/-- The transaction row built for one transaction (transformer lines 71-89):
base row, defaults, rule loop, derived date fields, then the amount/indicator
fallback when no amount was populated. -/
def buildTxRow (customer_id : String) (h : AccountHeader) (gd : DateT)
    (txSchema : List ColumnSpec) (cm : List (String × MappingRule))
    (tx : Transaction) : Row :=
  let row := apply_default_values (create_base_row customer_id h gd "transactions") txSchema
  let row := cm.foldl (txRuleStep tx) row
  let row := rset row "transaction_posting_date" (.vstr (tx.posting_date.getD gd).iso)
  let row := rset row "transaction_value_date" (.vstr (tx.value_date.getD gd).iso)
  if ¬ rhas row "transaction_amount" ∨ rget row "transaction_amount" = .null then
    rset (rset row "transaction_amount" (.vint 0)) "debit_credit_indicator" (.vstr "D")
  else row

/-- All rows of one account: its balance row followed by its transaction rows
(transformer lines 58-89, append order of `all_rows`). -/
def accountRows (customer_id : String) (gd : DateT) (balSchema txSchema : List ColumnSpec)
    (cm : List (String × MappingRule)) (a : Account) : List Row :=
  buildBalanceRow customer_id a.header gd balSchema cm ::
    a.children.map (buildTxRow customer_id a.header gd txSchema cm)

/-- All rows of one group (transformer lines 51-55): a group whose header has
no `as_of_date` is skipped with a warning and contributes no rows. -/
def groupRows (customer_id : String) (balSchema txSchema : List ColumnSpec)
    (cm : List (String × MappingRule)) (g : Group) : List Row :=
  match g.header.as_of_date with
  | none => []
  | some gd => g.children.flatMap (accountRows customer_id gd balSchema txSchema cm)

/-- `transform_bai_to_rows` (transformer lines 46-98). -/
def transform_bai_to_rows (file : Bai2File) (customer_id : String) (config : Config)
    (cm : List (String × MappingRule)) : List Row :=
  let balSchema := (get_table_schema config "balance").getD []
  let txSchema := (get_table_schema config "transactions").getD []
  file.children.flatMap (groupRows customer_id balSchema txSchema cm)

/-- The pipeline prefix of `src/src/bai_pipeline/main.py` `run` steps 1-3:
resolve the bank's mappings, then transform; a resolution failure aborts
before any row is built. -/
def pipeline_rows (config : Config) (bank_id customer_id : String) (file : Bai2File) :
    Except ConfigError (List Row) := do
  let rules ← resolve_mappings config bank_id
  .ok (transform_bai_to_rows file customer_id config (buildCodeMap rules))

/-! ### Validator (`src/src/bai_pipeline/validator.py`) -/

/-- Validation failures (`SchemaValidationError` of the spec's taxonomy; the
source raises `ValueError` with an equivalent message). -/
inductive ValidationError where
  | missingTargetTable (idx : Nat)
  | unknownTable (idx : Nat) (name : String)
  | missingFields (idx : Nat) (table : String) (fields : List String)
deriving DecidableEq, Repr

/-- The required column names of a schema. -/
def requiredFields (schema : List ColumnSpec) : List String :=
  (schema.filter (fun col => col.required)).map (fun col => col.name)

/-- The required fields of `schema` that read as `None` or `""` in `row`
(validator line 22: `row.get(f) in (None, "")`). -/
def missingRequired (row : Row) (schema : List ColumnSpec) : List String :=
  (requiredFields schema).filter (fun f => rget row f = .null ∨ rget row f = .vstr "")

/-- The validation loop from row index `idx` on (validator lines 15-26): the
first row whose `_target_table` is falsy, whose table is unrecognized, or
which misses a required field raises; later rows are not examined. -/
def validateFrom (config : Config) (idx : Nat) : List Row → Except ValidationError Unit
  | [] => .ok ()
  | row :: rest =>
    let tname := rget row "_target_table"
    if ¬ tname.truthy then .error (.missingTargetTable idx)
    else
      match get_table_schema config tname.strOf with
      | none => .error (.unknownTable idx tname.strOf)
      | some schema =>
        let missing := missingRequired row schema
        if missing ≠ [] then .error (.missingFields idx tname.strOf missing)
        else validateFrom config (idx + 1) rest

/-- `validate_rows` (validator lines 12-26). -/
def validate_rows (rows : List Row) (config : Config) : Except ValidationError Unit :=
  validateFrom config 0 rows

/-- The destination schema the validator resolves for a row (empty for an
unrecognized table); a helper for stating the validator's properties. -/
def rowSchema (config : Config) (r : Row) : List ColumnSpec :=
  (get_table_schema config (rget r "_target_table").strOf).getD []

/-- Whether a row fails the required-field check against its destination
schema; a helper for stating the validator's properties. -/
def rowFails (config : Config) (r : Row) : Bool :=
  missingRequired r (rowSchema config r) ≠ []

/-! ### Field encryption (`src/encrypt.py`)

The KMS client is external (§6); its `encrypt` primitive is a parameter
`encFn : String → String → List Nat` from key name and plaintext to
ciphertext bytes, and its key listing is a parameter `keys : List KmsKey`.
`encrypt_value` is instrumented with the number of `find_key_for_customer`
calls it performs, to settle the key-caching claim.
-/

/-- One KMS key: its resource name and its labels. -/
structure KmsKey where
  name : String
  labels : List (String × String)
deriving DecidableEq, Repr

/-- Errors raised by `src/encrypt.py` (`ValueError` in the source;
`EncryptionKeyNotFoundError` of the spec's taxonomy). -/
inductive EncryptError where
  | noKeyForCustomer (customer_id : String)
  | missingCustomerId
deriving DecidableEq, Repr

/-- `find_key_for_customer` (encrypt.py lines 6-13): the name of the first
listed key whose `customer_id` label equals the customer, else an error.
Every call enumerates the keys anew; the function keeps no cache. -/
def find_key_for_customer (keys : List KmsKey) (customer_id : String) :
    Except EncryptError String :=
  match keys.find? (fun k =>
      (k.labels.find? (fun p => p.1 = "customer_id")).map (fun p => p.2)
        = some customer_id) with
  | some k => .ok k.name
  | none => .error (.noKeyForCustomer customer_id)

/-- The RFC 4648 base64 alphabet. -/
def b64chars : List Char :=
  "ABCDEFGHIJKLMNOPQRSTUVWXYZabcdefghijklmnopqrstuvwxyz0123456789+/".toList

/-- The base64 digit for a 6-bit group. -/
def b64char (n : Nat) : Char := b64chars.getD (n % 64) 'A'

/-- `base64.b64encode` on a byte list. -/
def base64encode : List Nat → String
  | [] => ""
  | [a] =>
    String.mk [b64char (a / 4), b64char (a % 4 * 16), '=', '=']
  | [a, b] =>
    String.mk [b64char (a / 4), b64char (a % 4 * 16 + b / 16), b64char (b % 16 * 4), '=']
  | a :: b :: c :: rest =>
    String.mk [b64char (a / 4), b64char (a % 4 * 16 + b / 16),
      b64char (b % 16 * 4 + c / 64), b64char (c % 64)] ++ base64encode rest

/-- `encrypt_value` (encrypt.py lines 16-28), instrumented: the resulting
ciphertext (base64 of the KMS encryption, `none` for a `None` plaintext) and
the number of key lookups the call performed. -/
def encrypt_value (keys : List KmsKey) (encFn : String → String → List Nat)
    (customer_id : String) (plaintext : Option String) :
    Except EncryptError (Option String × Nat) :=
  match plaintext with
  | none => .ok (none, 0)
  | some p => do
    let key_name ← find_key_for_customer keys customer_id
    .ok (some (base64encode (encFn key_name p)), 1)

/-- The ciphertext assignment `encrypted_row[field] = encrypted_value["ciphertext"]`. -/
def ciphertextValue : Option String → Value
  | some s => .vstr s
  | none => .null

/-- The field loop of `encrypt_row` (encrypt.py lines 36-42): accumulate the
output row and the total number of key lookups; fields read their plaintext
off the original `row`, writes go to the accumulator. -/
def encLoop (keys : List KmsKey) (encFn : String → String → List Nat)
    (row : Row) (customer_id : String) :
    List String → Row → Nat → Except EncryptError (Row × Nat)
  | [], acc, n => .ok (acc, n)
  | f :: rest, acc, n =>
    if rhas row f && (rget row f).truthy then
      match encrypt_value keys encFn customer_id (some (rget row f).strOf) with
      | .error e => .error e
      | .ok (ct, m) => encLoop keys encFn row customer_id rest (rset acc f (ciphertextValue ct)) (n + m)
    else encLoop keys encFn row customer_id rest acc n

/-- `encrypt_row` (encrypt.py lines 31-43), instrumented with the total key
lookup count: require a truthy `customer_id`, copy the row without it, then
encrypt every sensitive field that is present and truthy in the input row. -/
def encrypt_row (keys : List KmsKey) (encFn : String → String → List Nat)
    (row : Row) (sensitive_fields : List String) : Except EncryptError (Row × Nat) :=
  let cid := rget row "customer_id"
  if ¬ cid.truthy then .error .missingCustomerId
  else encLoop keys encFn row cid.strOf sensitive_fields (rdel row "customer_id") 0

/-! ### Concrete instances used to evaluate the definitions -/

/-- A concrete statement date. -/
def exDate : DateT := ⟨"2024-01-15"⟩

/-- A minimal account with no summary items and no transactions. -/
def exAcct : Account := { header := { customer_account_number := "001234" } }

/-- A group whose header is missing `as_of_date`, holding one account. -/
def groupNoDate : Group := { header := {}, children := [exAcct] }

/-- A well-dated group holding one account. -/
def groupDated : Group := { header := { as_of_date := some exDate }, children := [exAcct] }

/-- A file whose first group is missing `as_of_date` and whose second group
carries one; both groups hold one account. -/
def fileMissingDate : Bai2File := { children := [groupNoDate, groupDated] }

/-- A mapping rule sending type code `475` to `transactions.transaction_amount`. -/
def amtRule475 : MappingRule :=
  { bai_code := "475", bai_field := "amount",
    bq_column := "transaction_amount", table := "transactions" }

/-- The code map built from the single amount rule. -/
def cmAmt : List (String × MappingRule) := buildCodeMap [amtRule475]

/-- A transaction with a positive amount whose type code classifies it as a
debit. -/
def txDebitPos : Transaction :=
  { type_code := { code := "475", transaction_value := "debit" },
    fields := [("amount", .vint 500)] }

/-- An account holding the positive-amount debit transaction. -/
def acctWithTx : Account :=
  { header := { customer_account_number := "001234" }, children := [txDebitPos] }

/-- A one-group, one-account, one-transaction file. -/
def fileWithTx : Bai2File :=
  { children := [ { header := { as_of_date := some exDate }, children := [acctWithTx] } ] }

/-- A configuration whose common schema requires `account_number` and whose
balance schema requires `bsb`. -/
def cfgVal : Config :=
  { common_fields_schema := [{ name := "account_number", required := true }],
    balance_table_schema := [{ name := "bsb", required := true }] }

/-- A row that satisfies `cfgVal`'s balance requirements. -/
def rowGood : Row :=
  [("account_number", .vstr "1"), ("bsb", .vstr "x"), ("_target_table", .vstr "balance")]

/-- A balance row whose `account_number` is empty and whose `bsb` is absent. -/
def rowBad : Row :=
  [("account_number", .vstr ""), ("_target_table", .vstr "balance")]

/-- A configuration with no mapping entry for any bank and no defaults, but
with schemas present. -/
def cfgNoRules : Config :=
  { common_fields_schema := [{ name := "account_number", required := true }] }

/-- A configuration carrying a rule set for bank `CITI` only. -/
def cfgCiti : Config :=
  { mappings := [{ bank_id := "CITI", mappings := [amtRule475] }],
    bank_id_default_typecodes := [] }

/-- A single KMS key labelled for customer `c1`. -/
def exKeys : List KmsKey := [⟨"key1", [("customer_id", "c1")]⟩]

/-- A concrete stand-in for the external KMS `encrypt` primitive: the
plaintext's character codes. -/
def exEnc : String → String → List Nat := fun _ s => s.toList.map Char.toNat

/-- A row whose sensitive column `acct` holds the falsy-but-non-null `0`. -/
def rowSensitiveZero : Row :=
  [("customer_id", .vstr "c1"), ("acct", .vint 0), ("name", .vstr "bob")]

/-- A row with two truthy sensitive columns for the same customer. -/
def rowTwoSensitive : Row :=
  [("customer_id", .vstr "c1"), ("acct", .vstr "99"), ("name", .vstr "bob")]

/-! ### Basic properties of the row operations -/

theorem rget?_rset (r : Row) (k k' : String) (v : Value) :
    rget? (rset r k v) k' = if k' = k then some v else rget? r k' := by
  induction r with
  | nil =>
    by_cases h : k' = k
    · subst h; simp [rset, rget?]
    · have h2 : ¬ k = k' := fun hh => h hh.symm
      simp [rset, rget?, h, h2]
  | cons p r ih =>
    by_cases hp : p.1 = k
    · by_cases h : k' = k
      · subst h; simp [rset, rget?, hp]
      · have h2 : ¬ k = k' := fun hh => h hh.symm
        have h3 : ¬ p.1 = k' := by rw [hp]; exact h2
        simp [rset, rget?, hp, h, h2, h3]
    · by_cases hpk : p.1 = k'
      · have h : ¬ k' = k := fun hh => hp (hpk.trans hh)
        simp [rset, rget?, hp, hpk, h]
      · simp [rset, rget?, hp, hpk, ih]

theorem rget_rset_self (r : Row) (k : String) (v : Value) :
    rget (rset r k v) k = v := by
  simp [rget, rget?_rset]

theorem rget_rset_ne (r : Row) (k k' : String) (v : Value) (h : k' ≠ k) :
    rget (rset r k v) k' = rget r k' := by
  simp [rget, rget?_rset, h]

theorem rhas_rset_ne (r : Row) (k k' : String) (v : Value) (h : k' ≠ k) :
    rhas (rset r k v) k' = rhas r k' := by
  simp [rhas, rget?_rset, h]

theorem rhas_of_rget_ne_null (r : Row) (k : String) (h : rget r k ≠ .null) :
    rhas r k = true := by
  unfold rget rhas at *
  cases h' : rget? r k <;> simp [h'] at h ⊢

theorem rget?_rdel_ne (r : Row) (k k' : String) (h : k' ≠ k) :
    rget? (rdel r k) k' = rget? r k' := by
  induction r with
  | nil => rfl
  | cons p r ih =>
    have hk2 : ¬ k = k' := fun hh => h hh.symm
    by_cases hp : p.1 = k
    · have h3 : ¬ p.1 = k' := by rw [hp]; exact hk2
      simpa [rdel, List.filter_cons, hp, rget?, h3, hk2] using ih
    · by_cases hpk : p.1 = k'
      · simp [rdel, List.filter_cons, hp, rget?, hpk, h]
      · simpa [rdel, List.filter_cons, hp, rget?, hpk, h] using ih

theorem rget_rdel_ne (r : Row) (k k' : String) (h : k' ≠ k) :
    rget (rdel r k) k' = rget r k' := by
  simp [rget, rget?_rdel_ne r k k' h]

theorem rhas_rdel_self (r : Row) (k : String) : rhas (rdel r k) k = false := by
  induction r with
  | nil => rfl
  | cons p r ih =>
    by_cases hp : p.1 = k <;>
      simpa [rdel, List.filter_cons, hp, rhas, rget?] using ih

/-! ### Preservation through defaults and folds -/

theorem foldl_preserve {α β : Type} (P : β → Prop) (f : β → α → β) (l : List α) (b : β)
    (hb : P b) (hf : ∀ b' a, a ∈ l → P b' → P (f b' a)) : P (l.foldl f b) := by
  induction l generalizing b with
  | nil => exact hb
  | cons a l ih =>
    exact ih (f b a) (hf b a (List.mem_cons_self a l) hb)
      (fun b' x hx hp => hf b' x (List.mem_cons_of_mem a hx) hp)

theorem apply_default_values_cons (r : Row) (col : ColumnSpec) (s : List ColumnSpec) :
    apply_default_values r (col :: s) =
      apply_default_values
        (match col.default_value with
         | some dv => if rget r col.name = .null then rset r col.name dv else r
         | none => r) s := rfl

/-- A column that already reads non-null is never touched by default filling. -/
theorem rget_apply_defaults_of_ne_null (s : List ColumnSpec) (r : Row) (c : String)
    (h : rget r c ≠ .null) : rget (apply_default_values r s) c = rget r c := by
  induction s generalizing r with
  | nil => rfl
  | cons col s ih =>
    rw [apply_default_values_cons]
    cases hd : col.default_value with
    | none => exact ih r h
    | some dv =>
      by_cases hn : rget r col.name = .null
      · simp only [hn, if_true]
        have hne : c ≠ col.name := fun hh => h (hh ▸ hn)
        rw [ih (rset r col.name dv)
            (by rw [rget_rset_ne r col.name c dv hne]; exact h)]
        exact rget_rset_ne r col.name c dv hne
      · simp only [hn, if_false]; exact ih r h

/-- Default filling leaves a column unchanged when the schema provides it no
non-null default value. -/
theorem rget_apply_defaults_no_default (s : List ColumnSpec) (r : Row) (c : String)
    (h : ∀ col ∈ s, col.name = c → col.default_value = none ∨ col.default_value = some .null) :
    rget (apply_default_values r s) c = rget r c := by
  induction s generalizing r with
  | nil => rfl
  | cons col s ih =>
    have htail : ∀ x ∈ s, x.name = c → x.default_value = none ∨ x.default_value = some .null :=
      fun x hx => h x (List.mem_cons_of_mem col hx)
    rw [apply_default_values_cons]
    cases hd : col.default_value with
    | none => exact ih r htail
    | some dv =>
      by_cases hn : rget r col.name = .null
      · simp only [hn, if_true]
        by_cases hc : col.name = c
        · have hdv : dv = Value.null := by
            rcases h col (List.mem_cons_self col s) hc with h0 | h0
            · rw [hd] at h0; cases h0
            · rw [hd] at h0; exact Option.some.inj h0
          subst hdv
          subst hc
          rw [ih (rset r col.name .null) htail, rget_rset_self, hn]
        · have hne : c ≠ col.name := fun hh => hc hh.symm
          rw [ih (rset r col.name dv) htail]
          exact rget_rset_ne r col.name c dv hne
      · simp only [hn, if_false]; exact ih r htail

/-! ### Membership facts about code-map lookups -/

theorem codeMapLookup_mem (cm : List (String × MappingRule)) (code : String)
    (rule : MappingRule) (h : codeMapLookup cm code = some rule) : ∃ p ∈ cm, p.2 = rule := by
  unfold codeMapLookup at h
  cases hf : cm.find? (fun p => p.1 = code) with
  | none => rw [hf] at h; cases h
  | some p =>
    rw [hf] at h
    exact ⟨p, List.mem_of_find?_eq_some hf, Option.some.inj h⟩

theorem balanceRuleFor_mem (cm : List (String × MappingRule)) (s : SummaryItem)
    (rule : MappingRule) (h : balanceRuleFor cm s = some rule) :
    ∃ p ∈ cm, p.2 = rule ∧ rule.table = "balance" := by
  unfold balanceRuleFor at h
  cases hs : s.type_code with
  | none => rw [hs] at h; cases h
  | some tc =>
    rw [hs] at h
    dsimp only at h
    by_cases hc : tc.code = ""
    · rw [if_pos hc] at h; cases h
    · rw [if_neg hc] at h
      cases hl : codeMapLookup cm tc.code with
      | none => rw [hl] at h; cases h
      | some r0 =>
        rw [hl] at h
        dsimp only at h
        by_cases ht : r0.table = "balance"
        · rw [if_pos ht] at h
          have hr : r0 = rule := Option.some.inj h
          obtain ⟨p, hp, hpr⟩ := codeMapLookup_mem cm tc.code r0 hl
          exact ⟨p, hp, hpr.trans hr, hr ▸ ht⟩
        · rw [if_neg ht] at h; cases h

/-! ### The `_target_table` metadata of base rows -/

theorem create_base_row_balance_target (cust : String) (h : AccountHeader) (gd : DateT) :
    rget (create_base_row cust h gd "balance") "_target_table" = .vstr BALANCE_TABLE_ID := rfl

theorem create_base_row_tx_target (cust : String) (h : AccountHeader) (gd : DateT) :
    rget (create_base_row cust h gd "transactions") "_target_table"
      = .vstr TRANSACTIONS_TABLE_ID := rfl

theorem create_base_row_tx_amount (cust : String) (h : AccountHeader) (gd : DateT) :
    rget (create_base_row cust h gd "transactions") "transaction_amount" = .null := rfl

/-! ### Columns untouched or kept non-null by the transformation steps -/

theorem rset_preserves_nonnull (r : Row) (k : String) (v : Value) (c : String)
    (hv : v ≠ .null) (h : rget r c ≠ .null) : rget (rset r k v) c ≠ .null := by
  by_cases hc : c = k
  · subst hc; rw [rget_rset_self]; exact hv
  · rw [rget_rset_ne _ _ _ _ hc]; exact h

theorem txRuleStep_rget_ne (tx : Transaction) (p : String × MappingRule) (r : Row)
    (c : String) (h1 : c ≠ p.2.bq_column) (h2 : c ≠ "debit_credit_indicator") :
    rget (txRuleStep tx r p) c = rget r c := by
  unfold txRuleStep
  by_cases ht : p.2.table = "transactions"
  · rw [if_neg (by simpa using ht)]
    by_cases hv : getField tx.fields p.2.bai_field = .null
    · rw [if_pos hv]
    · rw [if_neg hv]
      by_cases ha : p.2.bq_column = "transaction_amount"
      · rw [if_pos ha, rget_rset_ne _ _ _ _ h2, rget_rset_ne _ _ _ _ h1]
      · rw [if_neg ha, rget_rset_ne _ _ _ _ h1]
  · rw [if_pos (by simpa using ht)]

theorem txRuleStep_preserves_nonnull (tx : Transaction) (p : String × MappingRule)
    (r : Row) (c : String) (h : rget r c ≠ .null) :
    rget (txRuleStep tx r p) c ≠ .null := by
  unfold txRuleStep
  by_cases ht : p.2.table = "transactions"
  · rw [if_neg (by simpa using ht)]
    by_cases hv : getField tx.fields p.2.bai_field = .null
    · rw [if_pos hv]; exact h
    · rw [if_neg hv]
      by_cases ha : p.2.bq_column = "transaction_amount"
      · rw [if_pos ha]
        exact rset_preserves_nonnull _ _ _ _ (fun hh => Value.noConfusion hh)
          (rset_preserves_nonnull _ _ _ _ hv h)
      · rw [if_neg ha]
        exact rset_preserves_nonnull _ _ _ _ hv h
  · rw [if_pos (by simpa using ht)]; exact h

theorem buildBalanceRow_target (cust : String) (h : AccountHeader) (gd : DateT)
    (balSchema : List ColumnSpec) (cm : List (String × MappingRule))
    (hcm : ∀ p ∈ cm, p.2.bq_column ≠ "_target_table") :
    rget (buildBalanceRow cust h gd balSchema cm) "_target_table"
      = .vstr BALANCE_TABLE_ID := by
  unfold buildBalanceRow
  apply foldl_preserve (fun r => rget r "_target_table" = Value.vstr BALANCE_TABLE_ID)
  · rw [rget_apply_defaults_of_ne_null]
    · exact create_base_row_balance_target cust h gd
    · rw [create_base_row_balance_target]
      exact fun hh => Value.noConfusion hh
  · intro r s _ hp
    cases hb : balanceRuleFor cm s with
    | none => simpa [hb] using hp
    | some rule =>
      obtain ⟨p, hpm, hpr, _⟩ := balanceRuleFor_mem cm s rule hb
      have hne : "_target_table" ≠ rule.bq_column := fun hh => (hcm p hpm) (hpr ▸ hh.symm)
      simpa [hb, rget_rset_ne _ _ _ _ hne] using hp

theorem buildTxRow_target (cust : String) (h : AccountHeader) (gd : DateT)
    (txSchema : List ColumnSpec) (cm : List (String × MappingRule)) (tx : Transaction)
    (hcm : ∀ p ∈ cm, p.2.bq_column ≠ "_target_table") :
    rget (buildTxRow cust h gd txSchema cm tx) "_target_table"
      = .vstr TRANSACTIONS_TABLE_ID := by
  unfold buildTxRow
  have h0 : rget (apply_default_values (create_base_row cust h gd "transactions") txSchema)
      "_target_table" = Value.vstr TRANSACTIONS_TABLE_ID := by
    rw [rget_apply_defaults_of_ne_null]
    · exact create_base_row_tx_target cust h gd
    · rw [create_base_row_tx_target]
      exact fun hh => Value.noConfusion hh
  have h1 : rget (cm.foldl (txRuleStep tx)
      (apply_default_values (create_base_row cust h gd "transactions") txSchema))
      "_target_table" = Value.vstr TRANSACTIONS_TABLE_ID := by
    apply foldl_preserve (fun r => rget r "_target_table" = Value.vstr TRANSACTIONS_TABLE_ID)
    · exact h0
    · intro r p hpm hp
      have hne : "_target_table" ≠ p.2.bq_column := fun hh => (hcm p hpm) hh.symm
      rw [txRuleStep_rget_ne tx p r "_target_table" hne (by decide)]
      exact hp
  set r1 := cm.foldl (txRuleStep tx)
      (apply_default_values (create_base_row cust h gd "transactions") txSchema) with hr1
  set r2 := rset (rset r1 "transaction_posting_date" (.vstr (tx.posting_date.getD gd).iso))
      "transaction_value_date" (.vstr (tx.value_date.getD gd).iso) with hr2
  have h2 : rget r2 "_target_table" = Value.vstr TRANSACTIONS_TABLE_ID := by
    rw [hr2, rget_rset_ne _ _ _ _ (by decide), rget_rset_ne _ _ _ _ (by decide)]
    exact h1
  by_cases hc : ¬ rhas r2 "transaction_amount" ∨ rget r2 "transaction_amount" = Value.null
  · rw [if_pos hc, rget_rset_ne _ _ _ _ (by decide), rget_rset_ne _ _ _ _ (by decide)]
    exact h2
  · rw [if_neg hc]
    exact h2

theorem buildTxRow_rule_nonnull (cust : String) (h : AccountHeader) (gd : DateT)
    (txSchema : List ColumnSpec) (cm : List (String × MappingRule)) (tx : Transaction)
    (p : String × MappingRule) (hp : p ∈ cm) (ht : p.2.table = "transactions")
    (hv : getField tx.fields p.2.bai_field ≠ .null) :
    rget (buildTxRow cust h gd txSchema cm tx) p.2.bq_column ≠ .null := by
  unfold buildTxRow
  have h1 : rget (cm.foldl (txRuleStep tx)
      (apply_default_values (create_base_row cust h gd "transactions") txSchema))
      p.2.bq_column ≠ Value.null := by
    obtain ⟨l1, l2, hsplit⟩ := List.append_of_mem hp
    rw [hsplit, List.foldl_append, List.foldl_cons]
    apply foldl_preserve (fun r => rget r p.2.bq_column ≠ Value.null)
    · unfold txRuleStep
      rw [if_neg (by simpa using ht), if_neg hv]
      by_cases ha : p.2.bq_column = "transaction_amount"
      · rw [if_pos ha, rget_rset_ne _ _ _ _ (by rw [ha]; decide), rget_rset_self]
        exact hv
      · rw [if_neg ha, rget_rset_self]; exact hv
    · intro r q _ hq
      exact txRuleStep_preserves_nonnull tx q r _ hq
  set r1 := cm.foldl (txRuleStep tx)
      (apply_default_values (create_base_row cust h gd "transactions") txSchema) with hr1
  set r2 := rset (rset r1 "transaction_posting_date" (.vstr (tx.posting_date.getD gd).iso))
      "transaction_value_date" (.vstr (tx.value_date.getD gd).iso) with hr2
  have h2 : rget r2 p.2.bq_column ≠ Value.null := by
    rw [hr2]
    exact rset_preserves_nonnull _ _ _ _ (fun hh => Value.noConfusion hh)
      (rset_preserves_nonnull _ _ _ _ (fun hh => Value.noConfusion hh) h1)
  by_cases hc : ¬ rhas r2 "transaction_amount" ∨ rget r2 "transaction_amount" = Value.null
  · rw [if_pos hc]
    exact rset_preserves_nonnull _ _ _ _ (fun hh => Value.noConfusion hh)
      (rset_preserves_nonnull _ _ _ _ (fun hh => Value.noConfusion hh) h2)
  · rw [if_neg hc]; exact h2

/-! ### Counting and membership of transformed rows -/

theorem accountRows_tx_filter_length (cust : String) (gd : DateT)
    (balSchema txSchema : List ColumnSpec) (cm : List (String × MappingRule)) (a : Account)
    (hcm : ∀ p ∈ cm, p.2.bq_column ≠ "_target_table") :
    ((accountRows cust gd balSchema txSchema cm a).filter
        (fun r => rget r "_target_table" = Value.vstr TRANSACTIONS_TABLE_ID)).length
      = a.children.length := by
  unfold accountRows
  rw [List.filter_cons]
  have hb : ¬ (rget (buildBalanceRow cust a.header gd balSchema cm) "_target_table"
      = Value.vstr TRANSACTIONS_TABLE_ID) := by
    rw [buildBalanceRow_target _ _ _ _ _ hcm]
    decide
  simp only [hb, decide_eq_false_iff_not.mpr hb, if_false, decide_eq_true_eq]
  rw [List.filter_eq_self.mpr, List.length_map]
  intro r hr
  obtain ⟨tx, _, rfl⟩ := List.mem_map.mp hr
  simp [buildTxRow_target _ _ _ _ _ _ hcm]

theorem accountRows_bal_filter_length (cust : String) (gd : DateT)
    (balSchema txSchema : List ColumnSpec) (cm : List (String × MappingRule)) (a : Account)
    (hcm : ∀ p ∈ cm, p.2.bq_column ≠ "_target_table") :
    ((accountRows cust gd balSchema txSchema cm a).filter
        (fun r => rget r "_target_table" = Value.vstr BALANCE_TABLE_ID)).length = 1 := by
  unfold accountRows
  rw [List.filter_cons]
  have hb : rget (buildBalanceRow cust a.header gd balSchema cm) "_target_table"
      = Value.vstr BALANCE_TABLE_ID := buildBalanceRow_target _ _ _ _ _ hcm
  simp only [decide_eq_true_eq.mpr hb, if_true, decide_eq_true_eq, List.length_cons]
  rw [List.filter_eq_nil_iff.mpr, List.length_nil]
  intro r hr
  obtain ⟨tx, _, rfl⟩ := List.mem_map.mp hr
  rw [buildTxRow_target _ _ _ _ _ _ hcm]
  decide

theorem flatMap_accounts_tx_filter_length (cust : String) (gd : DateT)
    (balSchema txSchema : List ColumnSpec) (cm : List (String × MappingRule))
    (l : List Account) (hcm : ∀ p ∈ cm, p.2.bq_column ≠ "_target_table") :
    ((l.flatMap (accountRows cust gd balSchema txSchema cm)).filter
        (fun r => rget r "_target_table" = Value.vstr TRANSACTIONS_TABLE_ID)).length
      = (l.map (fun a => a.children.length)).sum := by
  induction l with
  | nil => rfl
  | cons a l ih =>
    rw [List.flatMap_cons, List.filter_append, List.length_append, ih,
      accountRows_tx_filter_length cust gd balSchema txSchema cm a hcm,
      List.map_cons, List.sum_cons]

theorem flatMap_accounts_bal_filter_length (cust : String) (gd : DateT)
    (balSchema txSchema : List ColumnSpec) (cm : List (String × MappingRule))
    (l : List Account) (hcm : ∀ p ∈ cm, p.2.bq_column ≠ "_target_table") :
    ((l.flatMap (accountRows cust gd balSchema txSchema cm)).filter
        (fun r => rget r "_target_table" = Value.vstr BALANCE_TABLE_ID)).length
      = l.length := by
  induction l with
  | nil => rfl
  | cons a l ih =>
    rw [List.flatMap_cons, List.filter_append, List.length_append, ih,
      accountRows_bal_filter_length cust gd balSchema txSchema cm a hcm,
      List.length_cons, Nat.add_comm]

theorem transform_tx_filter_length (file : Bai2File) (cust : String) (config : Config)
    (cm : List (String × MappingRule))
    (hcm : ∀ p ∈ cm, p.2.bq_column ≠ "_target_table") :
    ((transform_bai_to_rows file cust config cm).filter
        (fun r => rget r "_target_table" = Value.vstr TRANSACTIONS_TABLE_ID)).length
      = ((file.children.filter (fun g => g.header.as_of_date.isSome)).map
          (fun g => (g.children.map (fun a => a.children.length)).sum)).sum := by
  unfold transform_bai_to_rows
  obtain ⟨gs⟩ := file
  induction gs with
  | nil => rfl
  | cons g gs ih =>
    rw [List.flatMap_cons, List.filter_append, List.length_append, ih, List.filter_cons]
    cases hd : g.header.as_of_date with
    | none =>
      have : groupRows cust ((get_table_schema config "balance").getD [])
          ((get_table_schema config "transactions").getD []) cm g = [] := by
        unfold groupRows; rw [hd]
      simp [this, hd]
    | some gd =>
      have : groupRows cust ((get_table_schema config "balance").getD [])
          ((get_table_schema config "transactions").getD []) cm g
          = g.children.flatMap (accountRows cust gd
              ((get_table_schema config "balance").getD [])
              ((get_table_schema config "transactions").getD []) cm) := by
        unfold groupRows; rw [hd]
      rw [this, flatMap_accounts_tx_filter_length _ _ _ _ _ _ hcm]
      simp [hd, Nat.add_comm]

theorem transform_bal_filter_length (file : Bai2File) (cust : String) (config : Config)
    (cm : List (String × MappingRule))
    (hcm : ∀ p ∈ cm, p.2.bq_column ≠ "_target_table") :
    ((transform_bai_to_rows file cust config cm).filter
        (fun r => rget r "_target_table" = Value.vstr BALANCE_TABLE_ID)).length
      = ((file.children.filter (fun g => g.header.as_of_date.isSome)).map
          (fun g => g.children.length)).sum := by
  unfold transform_bai_to_rows
  obtain ⟨gs⟩ := file
  induction gs with
  | nil => rfl
  | cons g gs ih =>
    rw [List.flatMap_cons, List.filter_append, List.length_append, ih, List.filter_cons]
    cases hd : g.header.as_of_date with
    | none =>
      have : groupRows cust ((get_table_schema config "balance").getD [])
          ((get_table_schema config "transactions").getD []) cm g = [] := by
        unfold groupRows; rw [hd]
      simp [this, hd]
    | some gd =>
      have : groupRows cust ((get_table_schema config "balance").getD [])
          ((get_table_schema config "transactions").getD []) cm g
          = g.children.flatMap (accountRows cust gd
              ((get_table_schema config "balance").getD [])
              ((get_table_schema config "transactions").getD []) cm) := by
        unfold groupRows; rw [hd]
      rw [this, flatMap_accounts_bal_filter_length _ _ _ _ _ _ hcm]
      simp [hd, Nat.add_comm]

theorem buildTxRow_mem_transform (file : Bai2File) (cust : String) (config : Config)
    (cm : List (String × MappingRule)) (g : Group) (gd : DateT) (a : Account)
    (tx : Transaction) (hg : g ∈ file.children) (hgd : g.header.as_of_date = some gd)
    (ha : a ∈ g.children) (htx : tx ∈ a.children) :
    buildTxRow cust a.header gd ((get_table_schema config "transactions").getD []) cm tx
      ∈ transform_bai_to_rows file cust config cm := by
  unfold transform_bai_to_rows
  refine List.mem_flatMap.mpr ⟨g, hg, ?_⟩
  unfold groupRows
  rw [hgd]
  refine List.mem_flatMap.mpr ⟨a, ha, ?_⟩
  unfold accountRows
  exact List.mem_cons_of_mem _ (List.mem_map_of_mem _ htx)

theorem buildBalanceRow_mem_transform (file : Bai2File) (cust : String) (config : Config)
    (cm : List (String × MappingRule)) (g : Group) (gd : DateT) (a : Account)
    (hg : g ∈ file.children) (hgd : g.header.as_of_date = some gd) (ha : a ∈ g.children) :
    buildBalanceRow cust a.header gd ((get_table_schema config "balance").getD []) cm
      ∈ transform_bai_to_rows file cust config cm := by
  unfold transform_bai_to_rows
  refine List.mem_flatMap.mpr ⟨g, hg, ?_⟩
  unfold groupRows
  rw [hgd]
  refine List.mem_flatMap.mpr ⟨a, ha, ?_⟩
  unfold accountRows
  exact List.mem_cons_self _ _

theorem mem_transform_cases (file : Bai2File) (cust : String) (config : Config)
    (cm : List (String × MappingRule)) (row : Row)
    (h : row ∈ transform_bai_to_rows file cust config cm) :
    (∃ g ∈ file.children, ∃ gd, g.header.as_of_date = some gd ∧ ∃ a ∈ g.children,
      row = buildBalanceRow cust a.header gd ((get_table_schema config "balance").getD []) cm)
    ∨ (∃ g ∈ file.children, ∃ gd, g.header.as_of_date = some gd ∧ ∃ a ∈ g.children,
        ∃ tx ∈ a.children,
          row = buildTxRow cust a.header gd
            ((get_table_schema config "transactions").getD []) cm tx) := by
  unfold transform_bai_to_rows at h
  obtain ⟨g, hg, hrow⟩ := List.mem_flatMap.mp h
  unfold groupRows at hrow
  cases hd : g.header.as_of_date with
  | none => rw [hd] at hrow; cases hrow
  | some gd =>
    rw [hd] at hrow
    obtain ⟨a, ha, hrow⟩ := List.mem_flatMap.mp hrow
    unfold accountRows at hrow
    rcases List.mem_cons.mp hrow with hrow | hrow
    · exact Or.inl ⟨g, hg, gd, hd, a, ha, hrow⟩
    · obtain ⟨tx, htx, hrow⟩ := List.mem_map.mp hrow
      exact Or.inr ⟨g, hg, gd, hd, a, ha, tx, htx, hrow.symm⟩

/-- A balance row whose summary items match no balance rule is exactly the
seeded base row after schema-default filling. -/
theorem buildBalanceRow_no_match (cust : String) (h : AccountHeader) (gd : DateT)
    (balSchema : List ColumnSpec) (cm : List (String × MappingRule))
    (hnm : ∀ s ∈ h.summary_items, balanceRuleFor cm s = none) :
    buildBalanceRow cust h gd balSchema cm
      = apply_default_values (create_base_row cust h gd "balance") balSchema := by
  unfold buildBalanceRow
  apply foldl_preserve
    (fun r => r = apply_default_values (create_base_row cust h gd "balance") balSchema)
  · rfl
  · intro r s hs hr
    simpa [hnm s hs] using hr

/-! ### Claim C1 -/

/-- C1 counterexample: the claim says that when any group's `as_of_date` is
absent, the transformation raises and no rows from any group are delivered.
`fileMissingDate`'s first group (`groupNoDate`) has no date, yet
`transform_bai_to_rows` returns normally with the second group's rows — the
run does not fail and rows are delivered. -/
theorem C1_counterexample :
    groupNoDate ∈ fileMissingDate.children
    ∧ groupNoDate.header.as_of_date = none
    ∧ transform_bai_to_rows fileMissingDate "cust" {} [] ≠ [] := by
  refine ⟨?_, rfl, ?_⟩
  · simp [fileMissingDate]
  · decide

/-- C1 (amended): `transform_bai_to_rows` does not fail on a group missing
`as_of_date`; it skips that group — delivering none of its rows — and still
delivers every row of the groups that carry a date: the output equals the
transformation of the file restricted to its dated groups. -/
theorem C1_amended_dateless_group_skipped (file : Bai2File) (cust : String)
    (config : Config) (cm : List (String × MappingRule)) :
    transform_bai_to_rows file cust config cm
      = transform_bai_to_rows
          ⟨file.children.filter (fun g => g.header.as_of_date.isSome)⟩ cust config cm := by
  unfold transform_bai_to_rows
  obtain ⟨gs⟩ := file
  show gs.flatMap _ = (List.filter _ gs).flatMap _
  induction gs with
  | nil => rfl
  | cons g gs ih =>
    rw [List.flatMap_cons, List.filter_cons]
    cases hd : g.header.as_of_date with
    | none =>
      have hz : groupRows cust ((get_table_schema config "balance").getD [])
          ((get_table_schema config "transactions").getD []) cm g = [] := by
        unfold groupRows; rw [hd]
      simp [hd, hz, ih]
    | some gd =>
      simp only [hd, Option.isSome_some, decide_eq_true_eq, if_true, List.flatMap_cons]
      rw [ih]

/-! ### Claim C2 -/

/-- C2: for every transaction in the hierarchy the transformation produces
exactly one transaction row — the number of rows tagged for the transactions
table equals the total number of transactions in dated groups, zero-rule
transactions included — and each mapping rule targeting the transactions
table whose source field reads non-null off a transaction writes into that
transaction's single row (its destination column is non-null there).  The
hypothesis excludes configurations whose rules write the reserved
`_target_table` column. -/
theorem C2_one_tx_row_per_transaction (file : Bai2File) (cust : String) (config : Config)
    (cm : List (String × MappingRule))
    (hcm : ∀ p ∈ cm, p.2.bq_column ≠ "_target_table") :
    ((transform_bai_to_rows file cust config cm).filter
        (fun r => rget r "_target_table" = Value.vstr TRANSACTIONS_TABLE_ID)).length
      = ((file.children.filter (fun g => g.header.as_of_date.isSome)).map
          (fun g => (g.children.map (fun a => a.children.length)).sum)).sum
    ∧ ∀ g ∈ file.children, ∀ gd, g.header.as_of_date = some gd →
        ∀ a ∈ g.children, ∀ tx ∈ a.children,
          buildTxRow cust a.header gd ((get_table_schema config "transactions").getD []) cm tx
              ∈ transform_bai_to_rows file cust config cm
          ∧ ∀ p ∈ cm, p.2.table = "transactions" →
              getField tx.fields p.2.bai_field ≠ .null →
              rget (buildTxRow cust a.header gd
                  ((get_table_schema config "transactions").getD []) cm tx)
                p.2.bq_column ≠ .null := by
  refine ⟨transform_tx_filter_length file cust config cm hcm, ?_⟩
  intro g hg gd hgd a ha tx htx
  exact ⟨buildTxRow_mem_transform file cust config cm g gd a tx hg hgd ha htx,
    fun p hp ht hv => buildTxRow_rule_nonnull cust a.header gd _ cm tx p hp ht hv⟩

/-- C2 witness: the one-transaction file yields exactly one transaction row. -/
theorem C2_one_tx_row_per_transaction_witness :
    ((transform_bai_to_rows fileWithTx "cust" {} cmAmt).filter
        (fun r => rget r "_target_table" = Value.vstr TRANSACTIONS_TABLE_ID)).length = 1 :=
  (C2_one_tx_row_per_transaction fileWithTx "cust" {} cmAmt (by decide)).1.trans (by decide)

/-! ### Claim C3 -/

/-- C3: every account in every processed (dated) group yields exactly one
balance row — the number of rows tagged for the balance table equals the
number of accounts in dated groups — and when none of an account's summary
items matches a balance rule, its balance row is exactly the seeded base row
after schema-default filling.  The hypothesis excludes configurations whose
rules write the reserved `_target_table` column. -/
theorem C3_one_balance_row_per_account (file : Bai2File) (cust : String) (config : Config)
    (cm : List (String × MappingRule))
    (hcm : ∀ p ∈ cm, p.2.bq_column ≠ "_target_table") :
    ((transform_bai_to_rows file cust config cm).filter
        (fun r => rget r "_target_table" = Value.vstr BALANCE_TABLE_ID)).length
      = ((file.children.filter (fun g => g.header.as_of_date.isSome)).map
          (fun g => g.children.length)).sum
    ∧ ∀ g ∈ file.children, ∀ gd, g.header.as_of_date = some gd →
        ∀ a ∈ g.children,
          buildBalanceRow cust a.header gd ((get_table_schema config "balance").getD []) cm
              ∈ transform_bai_to_rows file cust config cm
          ∧ ((∀ s ∈ a.header.summary_items, balanceRuleFor cm s = none) →
              buildBalanceRow cust a.header gd
                  ((get_table_schema config "balance").getD []) cm
                = apply_default_values (create_base_row cust a.header gd "balance")
                    ((get_table_schema config "balance").getD [])) := by
  refine ⟨transform_bal_filter_length file cust config cm hcm, ?_⟩
  intro g hg gd hgd a ha
  exact ⟨buildBalanceRow_mem_transform file cust config cm g gd a hg hgd ha,
    fun hnm => buildBalanceRow_no_match cust a.header gd _ cm hnm⟩

/-- C3 witness: the one-account dated file yields exactly one balance row. -/
theorem C3_one_balance_row_per_account_witness :
    ((transform_bai_to_rows fileWithTx "cust" {} cmAmt).filter
        (fun r => rget r "_target_table" = Value.vstr BALANCE_TABLE_ID)).length = 1 :=
  (C3_one_balance_row_per_account fileWithTx "cust" {} cmAmt (by decide)).1.trans (by decide)

/-! ### Claim C10 -/

/-- C10: every row returned by the transformer carries the reserved
`_target_table` key valued either the balance or the transactions table
identifier, and consequently the validator's error branch for a missing
`_target_table` key is unreachable on transformer output.  The hypothesis
excludes configurations whose rules write the reserved column. -/
theorem C10_target_table_always_present (file : Bai2File) (cust : String)
    (config : Config) (cm : List (String × MappingRule))
    (hcm : ∀ p ∈ cm, p.2.bq_column ≠ "_target_table") :
    (∀ row ∈ transform_bai_to_rows file cust config cm,
        rget row "_target_table" = .vstr BALANCE_TABLE_ID
        ∨ rget row "_target_table" = .vstr TRANSACTIONS_TABLE_ID)
    ∧ ∀ idx, validate_rows (transform_bai_to_rows file cust config cm) config
        ≠ .error (.missingTargetTable idx) := by
  have hall : ∀ row ∈ transform_bai_to_rows file cust config cm,
      rget row "_target_table" = Value.vstr BALANCE_TABLE_ID
      ∨ rget row "_target_table" = Value.vstr TRANSACTIONS_TABLE_ID := by
    intro row hrow
    rcases mem_transform_cases file cust config cm row hrow with
      ⟨g, _, gd, _, a, _, rfl⟩ | ⟨g, _, gd, _, a, _, tx, _, rfl⟩
    · exact Or.inl (buildBalanceRow_target _ _ _ _ _ hcm)
    · exact Or.inr (buildTxRow_target _ _ _ _ _ _ hcm)
  refine ⟨hall, ?_⟩
  have key : ∀ (rows : List Row), (∀ r ∈ rows, (rget r "_target_table").truthy) →
      ∀ i0 i, validateFrom config i0 rows ≠ .error (.missingTargetTable i) := by
    intro rows
    induction rows with
    | nil => intro _ i0 i h; cases h
    | cons r rows ih =>
      intro hrows i0 i
      have htr : (rget r "_target_table").truthy = true :=
        hrows r (List.mem_cons_self r rows)
      unfold validateFrom
      rw [if_neg (fun hh => hh htr)]
      cases hsch : get_table_schema config (rget r "_target_table").strOf with
      | none =>
        intro h
        injection h with h2
        exact ValidationError.noConfusion h2
      | some schema =>
        dsimp only
        by_cases hm : missingRequired r schema ≠ []
        · rw [if_pos hm]
          intro h
          injection h with h2
          exact ValidationError.noConfusion h2
        · rw [if_neg hm]
          exact ih (fun x hx => hrows x (List.mem_cons_of_mem r hx)) (i0 + 1) i
  intro idx
  apply key
  · intro r hr
    rcases hall r hr with h | h <;> rw [h] <;> decide

/-- C10 witness: on the concrete one-transaction pipeline run, validation
never reports a missing `_target_table` key. -/
theorem C10_target_table_always_present_witness :
    validate_rows (transform_bai_to_rows fileWithTx "cust" {} cmAmt) {}
      ≠ Except.error (.missingTargetTable 0) :=
  (C10_target_table_always_present fileWithTx "cust" {} cmAmt (by decide)).2 0

/-! ### The amount / indicator invariant of the transaction rule loop -/

/-- A rule-loop step that does not populate `transaction_amount` leaves both
the amount column and — when the rule does not target the indicator column —
the `debit_credit_indicator` column unchanged. -/
theorem txRuleStep_unmatched (tx : Transaction) (q : String × MappingRule) (r : Row)
    (hq : ¬(q.2.table = "transactions" ∧ q.2.bq_column = "transaction_amount"
        ∧ getField tx.fields q.2.bai_field ≠ Value.null))
    (hind : q.2.bq_column ≠ "debit_credit_indicator") :
    rget (txRuleStep tx r q) "transaction_amount" = rget r "transaction_amount"
    ∧ rget (txRuleStep tx r q) "debit_credit_indicator"
        = rget r "debit_credit_indicator" := by
  unfold txRuleStep
  by_cases ht : q.2.table = "transactions"
  · rw [if_neg (by simpa using ht)]
    by_cases hv : getField tx.fields q.2.bai_field = .null
    · rw [if_pos hv]; exact ⟨rfl, rfl⟩
    · rw [if_neg hv]
      have hbq : q.2.bq_column ≠ "transaction_amount" := fun hh => hq ⟨ht, hh, hv⟩
      rw [if_neg hbq]
      exact ⟨rget_rset_ne _ _ _ _ (fun hh => hbq hh.symm),
        rget_rset_ne _ _ _ _ (fun hh => hind hh.symm)⟩
  · rw [if_pos (by simpa using ht)]; exact ⟨rfl, rfl⟩

/-- The invariant of the transaction rule loop: when no rule populates the
amount, both the amount and indicator columns are left as found; when some
rule does, after the loop the amount is non-null and the indicator equals
the value derived from the transaction's debit/credit type code. -/
theorem txloop_invariant (tx : Transaction) (l : List (String × MappingRule)) (r : Row)
    (hind : ∀ p ∈ l, p.2.bq_column ≠ "debit_credit_indicator") :
    (¬(∃ p ∈ l, p.2.table = "transactions" ∧ p.2.bq_column = "transaction_amount"
          ∧ getField tx.fields p.2.bai_field ≠ Value.null) →
        rget (l.foldl (txRuleStep tx) r) "transaction_amount"
            = rget r "transaction_amount"
        ∧ rget (l.foldl (txRuleStep tx) r) "debit_credit_indicator"
            = rget r "debit_credit_indicator")
    ∧ ((∃ p ∈ l, p.2.table = "transactions" ∧ p.2.bq_column = "transaction_amount"
          ∧ getField tx.fields p.2.bai_field ≠ Value.null) →
        rget (l.foldl (txRuleStep tx) r) "transaction_amount" ≠ Value.null
        ∧ rget (l.foldl (txRuleStep tx) r) "debit_credit_indicator"
            = Value.vstr (if tx.type_code.transaction_value = "debit" then "D" else "C")) := by
  induction l generalizing r with
  | nil =>
    refine ⟨fun _ => ⟨rfl, rfl⟩, fun hex => absurd hex ?_⟩
    simp
  | cons q l ih =>
    have hindl : ∀ p ∈ l, p.2.bq_column ≠ "debit_credit_indicator" :=
      fun p hp => hind p (List.mem_cons_of_mem q hp)
    rw [List.foldl_cons]
    by_cases hm : q.2.table = "transactions" ∧ q.2.bq_column = "transaction_amount"
        ∧ getField tx.fields q.2.bai_field ≠ Value.null
    · -- the head rule populates the amount
      have hstep : rget (txRuleStep tx r q) "transaction_amount" ≠ Value.null
          ∧ rget (txRuleStep tx r q) "debit_credit_indicator"
            = Value.vstr (if tx.type_code.transaction_value = "debit" then "D" else "C") := by
        unfold txRuleStep
        rw [if_neg (by simpa using hm.1), if_neg hm.2.2, if_pos hm.2.1]
        constructor
        · rw [rget_rset_ne _ _ _ _ (by decide)]
          rw [hm.2.1, rget_rset_self]
          exact hm.2.2
        · rw [rget_rset_self]
      constructor
      · intro hnex
        exact absurd ⟨q, List.mem_cons_self q l, hm⟩ hnex
      · intro _
        by_cases hex : ∃ p ∈ l, p.2.table = "transactions"
            ∧ p.2.bq_column = "transaction_amount"
            ∧ getField tx.fields p.2.bai_field ≠ Value.null
        · exact (ih (txRuleStep tx r q) hindl).2 hex
        · obtain ⟨ha, hi⟩ := (ih (txRuleStep tx r q) hindl).1 hex
          exact ⟨ha.symm ▸ hstep.1, hi.trans hstep.2⟩
    · -- the head rule does not populate the amount
      have hstep := txRuleStep_unmatched tx q r hm (hind q (List.mem_cons_self q l))
      constructor
      · intro hnex
        have hnexl : ¬ ∃ p ∈ l, p.2.table = "transactions"
            ∧ p.2.bq_column = "transaction_amount"
            ∧ getField tx.fields p.2.bai_field ≠ Value.null :=
          fun ⟨p, hp, hpm⟩ => hnex ⟨p, List.mem_cons_of_mem q hp, hpm⟩
        obtain ⟨ha, hi⟩ := (ih (txRuleStep tx r q) hindl).1 hnexl
        exact ⟨ha.trans hstep.1, hi.trans hstep.2⟩
      · intro hex
        obtain ⟨p, hp, hpm⟩ := hex
        rcases List.mem_cons.mp hp with rfl | hpl
        · exact absurd hpm hm
        · exact (ih (txRuleStep tx r q) hindl).2 ⟨p, hpl, hpm⟩

/-! ### Claim C4 -/

/-- C4 counterexample: the claim says `debit_credit_indicator` is `"D"` iff
the row's `transaction_amount` is negative or defaulted, else `"C"`.  For a
transaction whose populated amount is `500` (non-negative, so the claim
demands `"C"`) but whose type code classifies it as a debit, the code emits
`"D"`: the indicator is derived from the type code, not from the amount's
sign. -/
theorem C4_counterexample :
    rget (buildTxRow "cust" acctWithTx.header exDate [] cmAmt txDebitPos)
        "transaction_amount" = Value.vint 500
    ∧ ¬ ((500 : Int) < 0)
    ∧ rget (buildTxRow "cust" acctWithTx.header exDate [] cmAmt txDebitPos)
        "debit_credit_indicator" = Value.vstr "D" := by
  decide

/-- C4 (amended): when some rule populates `transaction_amount` with a
non-null value, `debit_credit_indicator` is `"D"` iff the transaction's type
code classifies it as a debit (and `"C"` otherwise), independent of the
amount's sign; when no rule populates the amount, the amount defaults to `0`
and the indicator to `"D"`.  Hypotheses: the transactions schema gives
`transaction_amount` no non-null default, and no rule maps onto the
`debit_credit_indicator` column. -/
theorem C4_amended_indicator_from_type_code (cust : String) (h : AccountHeader)
    (gd : DateT) (txSchema : List ColumnSpec) (cm : List (String × MappingRule))
    (tx : Transaction)
    (hd : ∀ col ∈ txSchema, col.name = "transaction_amount" →
        col.default_value = none ∨ col.default_value = some .null)
    (hind : ∀ p ∈ cm, p.2.bq_column ≠ "debit_credit_indicator") :
    ((∃ p ∈ cm, p.2.table = "transactions" ∧ p.2.bq_column = "transaction_amount"
        ∧ getField tx.fields p.2.bai_field ≠ Value.null) →
      rget (buildTxRow cust h gd txSchema cm tx) "debit_credit_indicator"
        = .vstr (if tx.type_code.transaction_value = "debit" then "D" else "C"))
    ∧ (¬(∃ p ∈ cm, p.2.table = "transactions" ∧ p.2.bq_column = "transaction_amount"
        ∧ getField tx.fields p.2.bai_field ≠ Value.null) →
      rget (buildTxRow cust h gd txSchema cm tx) "debit_credit_indicator" = .vstr "D"
      ∧ rget (buildTxRow cust h gd txSchema cm tx) "transaction_amount" = .vint 0) := by
  unfold buildTxRow
  have h0 : rget (apply_default_values (create_base_row cust h gd "transactions") txSchema)
      "transaction_amount" = Value.null := by
    rw [rget_apply_defaults_no_default _ _ _ hd, create_base_row_tx_amount]
  set r0 := apply_default_values (create_base_row cust h gd "transactions") txSchema with hr0
  have hinv := txloop_invariant tx cm r0 hind
  set r1 := cm.foldl (txRuleStep tx) r0 with hr1
  set r2 := rset (rset r1 "transaction_posting_date" (.vstr (tx.posting_date.getD gd).iso))
      "transaction_value_date" (.vstr (tx.value_date.getD gd).iso) with hr2
  have hamt2 : rget r2 "transaction_amount" = rget r1 "transaction_amount" := by
    rw [hr2, rget_rset_ne _ _ _ _ (by decide), rget_rset_ne _ _ _ _ (by decide)]
  have hind2 : rget r2 "debit_credit_indicator" = rget r1 "debit_credit_indicator" := by
    rw [hr2, rget_rset_ne _ _ _ _ (by decide), rget_rset_ne _ _ _ _ (by decide)]
  constructor
  · intro hex
    obtain ⟨ha1, hi1⟩ := hinv.2 hex
    have ha2 : rget r2 "transaction_amount" ≠ Value.null := by rw [hamt2]; exact ha1
    have hcond : ¬(¬ rhas r2 "transaction_amount"
        ∨ rget r2 "transaction_amount" = Value.null) := by
      intro hc
      rcases hc with hc | hc
      · exact hc (rhas_of_rget_ne_null r2 _ ha2)
      · exact ha2 hc
    rw [if_neg hcond, hind2]
    exact hi1
  · intro hnex
    obtain ⟨ha1, hi1⟩ := hinv.1 hnex
    have hnull : rget r2 "transaction_amount" = Value.null := by rw [hamt2, ha1, h0]
    rw [if_pos (Or.inr hnull)]
    constructor
    · rw [rget_rset_self]
    · rw [rget_rset_ne _ _ _ _ (by decide), rget_rset_self]

/-- C4 witness: for the concrete positive-amount debit transaction the
amended rule applies and yields indicator `"D"`. -/
theorem C4_amended_indicator_from_type_code_witness :
    rget (buildTxRow "c2" acctWithTx.header exDate [] cmAmt txDebitPos)
        "debit_credit_indicator" = Value.vstr "D" :=
  ((C4_amended_indicator_from_type_code "c2" acctWithTx.header exDate [] cmAmt
      txDebitPos (by decide) (by decide)).1 (by decide)).trans (by decide)

/-! ### Claim C5 -/

/-- The full behaviour of the validation loop from an arbitrary start index,
for rows whose target tables are recognized: success exactly when no row
fails, and otherwise the error reported for the first failing row, which is
also reached on the prefix that ends at that row. -/
theorem validateFrom_spec (config : Config) (rows : List Row) :
    ∀ i0 : Nat,
      (∀ r ∈ rows, rget r "_target_table" = Value.vstr "balance"
          ∨ rget r "_target_table" = Value.vstr "transactions") →
      (rows.findIdx? (rowFails config) = none → validateFrom config i0 rows = .ok ())
      ∧ (∀ j, rows.findIdx? (rowFails config) = some j →
          ∃ r0, rows.get? j = some r0
            ∧ validateFrom config i0 rows
                = .error (.missingFields (i0 + j) (rget r0 "_target_table").strOf
                    (missingRequired r0 (rowSchema config r0)))
            ∧ validateFrom config i0 (rows.take (j + 1))
                = .error (.missingFields (i0 + j) (rget r0 "_target_table").strOf
                    (missingRequired r0 (rowSchema config r0)))) := by
  induction rows with
  | nil =>
    intro i0 _
    refine ⟨fun _ => rfl, fun j hj => ?_⟩
    simp [List.findIdx?] at hj
  | cons r rows ih =>
    intro i0 hrec
    have hr := hrec r (List.mem_cons_self r rows)
    have htruthy : (rget r "_target_table").truthy = true := by
      rcases hr with h | h <;> rw [h] <;> decide
    have hschema : get_table_schema config (rget r "_target_table").strOf
        = some (rowSchema config r) := by
      rcases hr with h | h <;>
        simp [rowSchema, h, Value.strOf, get_table_schema]
    have hstep : ∀ (tl : List Row) (i : Nat), validateFrom config i (r :: tl)
        = if missingRequired r (rowSchema config r) ≠ [] then
            .error (.missingFields i (rget r "_target_table").strOf
              (missingRequired r (rowSchema config r)))
          else validateFrom config (i + 1) tl := by
      intro tl i
      conv_lhs => rw [validateFrom, if_neg (fun hh => hh htruthy), hschema]
    by_cases hf : rowFails config r
    · have hfprop : missingRequired r (rowSchema config r) ≠ [] := by
        simpa [rowFails] using hf
      rw [List.findIdx?_cons, if_pos hf]
      refine ⟨(fun h => nomatch h), fun j hj => ?_⟩
      cases Option.some.inj hj
      refine ⟨r, rfl, ?_, ?_⟩
      · rw [hstep rows i0, if_pos hfprop, Nat.add_zero]
      · show validateFrom config i0 [r] = _
        rw [hstep [] i0, if_pos hfprop, Nat.add_zero]
    · have hfprop : ¬ missingRequired r (rowSchema config r) ≠ [] := by
        simpa [rowFails] using hf
      have hrecl : ∀ x ∈ rows, rget x "_target_table" = Value.vstr "balance"
          ∨ rget x "_target_table" = Value.vstr "transactions" :=
        fun x hx => hrec x (List.mem_cons_of_mem r hx)
      rw [List.findIdx?_cons, if_neg hf, List.findIdx?_succ]
      constructor
      · intro hnone
        have h0 : rows.findIdx? (rowFails config) = none := by
          cases h' : rows.findIdx? (rowFails config) with
          | none => rfl
          | some j => rw [h'] at hnone; cases hnone
        rw [hstep rows i0, if_neg hfprop]
        exact (ih (i0 + 1) hrecl).1 h0
      · intro j hj
        obtain ⟨j', hj', hjj⟩ : ∃ j', rows.findIdx? (rowFails config) = some j'
            ∧ j' + 1 = j := by
          cases h' : rows.findIdx? (rowFails config) with
          | none => rw [h'] at hj; cases hj
          | some j0 => rw [h'] at hj; exact ⟨j0, rfl, Option.some.inj hj⟩
        subst hjj
        obtain ⟨r0, hget, hfull, htake⟩ := (ih (i0 + 1) hrecl).2 j' hj'
        have hidx : i0 + (j' + 1) = (i0 + 1) + j' := by omega
        refine ⟨r0, hget, ?_, ?_⟩
        · rw [hstep rows i0, if_neg hfprop, hidx]
          exact hfull
        · show validateFrom config i0 (r :: rows.take (j' + 1)) = _
          rw [hstep (rows.take (j' + 1)) i0, if_neg hfprop, hidx]
          exact htake

/-- C5: on rows whose `_target_table` is recognized, the validator raises iff
some row lacks a non-empty value for a required column of its destination
schema; on failure the error names the first failing row's position and the
complete list of its missing required fields, and the same error is already
reached on the prefix ending at that row (no later row is examined). -/
theorem C5_validator_fail_fast (rows : List Row) (config : Config)
    (hrec : ∀ r ∈ rows, rget r "_target_table" = Value.vstr "balance"
        ∨ rget r "_target_table" = Value.vstr "transactions") :
    (validate_rows rows config = .ok ()
      ↔ ∀ r ∈ rows, missingRequired r (rowSchema config r) = [])
    ∧ ∀ j, rows.findIdx? (rowFails config) = some j →
        ∃ r0, rows.get? j = some r0
          ∧ validate_rows rows config
              = .error (.missingFields j (rget r0 "_target_table").strOf
                  (missingRequired r0 (rowSchema config r0)))
          ∧ validate_rows (rows.take (j + 1)) config
              = .error (.missingFields j (rget r0 "_target_table").strOf
                  (missingRequired r0 (rowSchema config r0))) := by
  have hspec := validateFrom_spec config rows 0 hrec
  constructor
  · constructor
    · intro hok r hr
      by_contra hne
      cases hidx : rows.findIdx? (rowFails config) with
      | none =>
        have hfalse := List.findIdx?_eq_none_iff.mp hidx r hr
        exact hne (by simpa [rowFails] using hfalse)
      | some j =>
        obtain ⟨r0, _, hfull, _⟩ := hspec.2 j hidx
        exact Except.noConfusion (hok.symm.trans hfull)
    · intro hall
      apply hspec.1
      apply List.findIdx?_eq_none_iff.mpr
      intro x hx
      simp [rowFails, hall x hx]
  · intro j hj
    obtain ⟨r0, hget, hfull, htake⟩ := hspec.2 j hj
    rw [Nat.zero_add] at hfull htake
    exact ⟨r0, hget, hfull, htake⟩

/-- C5 witness: with a passing first row and a second balance row missing
`account_number` (empty) and `bsb` (absent), validation fails at index 1
naming both fields. -/
theorem C5_validator_fail_fast_witness :
    validate_rows [rowGood, rowBad] cfgVal
      = .error (.missingFields 1 "balance" ["account_number", "bsb"]) := by
  obtain ⟨r0, hget, hfull, -⟩ :=
    (C5_validator_fail_fast [rowGood, rowBad] cfgVal (by decide)).2 1 (by decide)
  have hr0 : r0 = rowBad := by
    have := hget.symm
    simpa using this
  subst hr0
  exact hfull.trans (congrArg Except.error (by decide))

/-! ### The encryption loop, characterized -/

/-- What the `encrypt_row` field loop computes when the customer's key
resolves: it succeeds, performs one key lookup per present-and-truthy
sensitive field, replaces exactly those fields with the base64-encoded
ciphertext of their string representation, and leaves every other key of the
accumulator untouched. -/
theorem encLoop_spec (keys : List KmsKey) (encFn : String → String → List Nat)
    (row : Row) (cid kname : String)
    (hkey : find_key_for_customer keys cid = .ok kname) :
    ∀ (fs : List String) (acc : Row) (n : Nat),
      ∃ out, encLoop keys encFn row cid fs acc n
          = .ok (out, n + (fs.filter (fun f => rhas row f && (rget row f).truthy)).length)
        ∧ (∀ f, f ∈ fs → (rhas row f && (rget row f).truthy) = true →
            rget out f = .vstr (base64encode (encFn kname (rget row f).strOf)))
        ∧ (∀ k, ¬(k ∈ fs ∧ (rhas row k && (rget row k).truthy) = true) →
            rget out k = rget acc k)
        ∧ (∀ k, ¬(k ∈ fs ∧ (rhas row k && (rget row k).truthy) = true) →
            rhas out k = rhas acc k) := by
  intro fs
  induction fs with
  | nil =>
    intro acc n
    exact ⟨acc, by simp [encLoop], fun f hf => absurd hf (List.not_mem_nil f),
      fun k _ => rfl, fun k _ => rfl⟩
  | cons f fs ih =>
    intro acc n
    by_cases hc : (rhas row f && (rget row f).truthy) = true
    · have henc : encrypt_value keys encFn cid (some (rget row f).strOf)
          = .ok (some (base64encode (encFn kname (rget row f).strOf)), 1) := by
        unfold encrypt_value
        rw [hkey]
        rfl
      have hstep : encLoop keys encFn row cid (f :: fs) acc n
          = encLoop keys encFn row cid fs
              (rset acc f (.vstr (base64encode (encFn kname (rget row f).strOf)))) (n + 1) := by
        conv_lhs => rw [encLoop]
        rw [if_pos hc, henc]
        rfl
      obtain ⟨out, hout, henc2, hunt, hhas⟩ :=
        ih (rset acc f (.vstr (base64encode (encFn kname (rget row f).strOf)))) (n + 1)
      refine ⟨out, ?_, ?_, ?_, ?_⟩
      · rw [hstep, hout, List.filter_cons, if_pos hc, List.length_cons]
        have harith : n + 1 + (List.filter (fun f => rhas row f && (rget row f).truthy) fs).length
            = n + ((List.filter (fun f => rhas row f && (rget row f).truthy) fs).length + 1) := by
          omega
        rw [harith]
      · intro g hg hcg
        rcases List.mem_cons.mp hg with rfl | hgl
        · by_cases hgf : g ∈ fs
          · exact henc2 g hgf hcg
          · rw [hunt g (fun hh => hgf hh.1), rget_rset_self]
        · exact henc2 g hgl hcg
      · intro k hk
        have hkf : k ≠ f := by
          rintro rfl
          exact hk ⟨List.mem_cons_self k fs, hc⟩
        rw [hunt k (fun hh => hk ⟨List.mem_cons_of_mem f hh.1, hh.2⟩),
          rget_rset_ne _ _ _ _ hkf]
      · intro k hk
        have hkf : k ≠ f := by
          rintro rfl
          exact hk ⟨List.mem_cons_self k fs, hc⟩
        rw [hhas k (fun hh => hk ⟨List.mem_cons_of_mem f hh.1, hh.2⟩),
          rhas_rset_ne _ _ _ _ hkf]
    · have hstep : encLoop keys encFn row cid (f :: fs) acc n
          = encLoop keys encFn row cid fs acc n := by
        conv_lhs => rw [encLoop]
        rw [if_neg hc]
      obtain ⟨out, hout, henc2, hunt, hhas⟩ := ih acc n
      refine ⟨out, ?_, ?_, ?_, ?_⟩
      · rw [hstep, hout, List.filter_cons, if_neg hc]
      · intro g hg hcg
        rcases List.mem_cons.mp hg with rfl | hgl
        · exact absurd hcg hc
        · exact henc2 g hgl hcg
      · intro k hk
        exact hunt k (fun hh => hk ⟨List.mem_cons_of_mem f hh.1, hh.2⟩)
      · intro k hk
        exact hhas k (fun hh => hk ⟨List.mem_cons_of_mem f hh.1, hh.2⟩)

/-- `encrypt_row` on a row with a truthy string `customer_id` is exactly the
field loop started on the copy without that key. -/
theorem encrypt_row_eq_encLoop (keys : List KmsKey) (encFn : String → String → List Nat)
    (row : Row) (fields : List String) (c : String)
    (hcid : rget row "customer_id" = .vstr c) (hc : c ≠ "") :
    encrypt_row keys encFn row fields
      = encLoop keys encFn row c fields (rdel row "customer_id") 0 := by
  unfold encrypt_row
  rw [hcid]
  rw [if_neg (fun hh => hh (by simpa [Value.truthy] using hc))]
  rfl

/-! ### Claim C6 -/

/-- C6 counterexample: the claim says every sensitive column present with a
non-null value is replaced by base64 ciphertext.  The sensitive column
`acct` of `rowSensitiveZero` holds `0` — non-null but falsy — and
`encrypt_row` leaves it as the raw `0`: the guard `if field in row and
row[field]` tests Python truthiness, not non-nullness, so the plaintext
survives. -/
theorem C6_counterexample :
    rget rowSensitiveZero "acct" = Value.vint 0
    ∧ Value.vint 0 ≠ Value.null
    ∧ (encrypt_row exKeys exEnc rowSensitiveZero ["acct", "name"]).map
        (fun p => rget p.1 "acct") = .ok (Value.vint 0) :=
  ⟨rfl, by decide, rfl⟩

/-- C6 (amended): for every row output by `encrypt_row`, every sensitive
column present with a *truthy* value (non-null, non-zero, non-empty) holds
the base64 encoding of its ciphertext; null, absent *and falsy* sensitive
values are left untouched; and the customer-identifier field is absent from
the output row.  Hypotheses: the row carries a non-empty string
`customer_id`, that customer's key resolves, and `customer_id` is not itself
listed as a sensitive field. -/
theorem C6_amended_sensitive_fields_encrypted (keys : List KmsKey)
    (encFn : String → String → List Nat) (row : Row) (fields : List String)
    (c kname : String) (hcid : rget row "customer_id" = .vstr c) (hc : c ≠ "")
    (hkey : find_key_for_customer keys c = .ok kname)
    (hnf : "customer_id" ∉ fields) :
    ∃ out n, encrypt_row keys encFn row fields = .ok (out, n)
      ∧ (∀ f ∈ fields, (rhas row f && (rget row f).truthy) = true →
          rget out f = .vstr (base64encode (encFn kname (rget row f).strOf)))
      ∧ (∀ f ∈ fields, (rhas row f && (rget row f).truthy) ≠ true →
          rget out f = rget row f)
      ∧ rhas out "customer_id" = false := by
  obtain ⟨out, hout, henc, hunt, hhas⟩ :=
    encLoop_spec keys encFn row c kname hkey fields (rdel row "customer_id") 0
  refine ⟨out, _, (encrypt_row_eq_encLoop keys encFn row fields c hcid hc).trans hout,
    henc, ?_, ?_⟩
  · intro f hf hcond
    have hfc : f ≠ "customer_id" := fun hh => hnf (hh ▸ hf)
    rw [hunt f (fun hh => hcond hh.2), rget_rdel_ne _ _ _ hfc]
  · rw [hhas "customer_id" (fun hh => hnf hh.1), rhas_rdel_self]

/-- C6 witness: on the concrete two-sensitive-field row the amended claim
applies with customer `c1` and key `key1`. -/
theorem C6_amended_sensitive_fields_encrypted_witness :
    ∃ out n, encrypt_row exKeys exEnc rowTwoSensitive ["acct", "name"] = .ok (out, n)
      ∧ (∀ f ∈ ["acct", "name"],
          (rhas rowTwoSensitive f && (rget rowTwoSensitive f).truthy) = true →
          rget out f = .vstr (base64encode (exEnc "key1" (rget rowTwoSensitive f).strOf)))
      ∧ (∀ f ∈ ["acct", "name"],
          (rhas rowTwoSensitive f && (rget rowTwoSensitive f).truthy) ≠ true →
          rget out f = rget rowTwoSensitive f)
      ∧ rhas out "customer_id" = false :=
  C6_amended_sensitive_fields_encrypted exKeys exEnc rowTwoSensitive ["acct", "name"]
    "c1" "key1" rfl (by decide) rfl (by decide)

/-! ### Claim C7 -/

/-- C7 counterexample: the claim says the expensive key lookup runs at most
once per customer per run.  Encrypting one row with two truthy sensitive
fields for the same customer `c1` performs two lookups — there is no cache
in `find_key_for_customer` or `encrypt_value`. -/
theorem C7_counterexample :
    (encrypt_row exKeys exEnc rowTwoSensitive ["acct", "name"]).map (fun p => p.2)
        = .ok 2
    ∧ ¬ (2 ≤ 1) :=
  ⟨rfl, by decide⟩

/-- C7 (amended): no key cache exists: every encryption of a
present-and-truthy sensitive value performs its own key lookup, so a row
with `n` such fields performs exactly `n` lookups for its customer. -/
theorem C7_amended_lookup_per_truthy_field (keys : List KmsKey)
    (encFn : String → String → List Nat) (row : Row) (fields : List String)
    (c kname : String) (hcid : rget row "customer_id" = .vstr c) (hc : c ≠ "")
    (hkey : find_key_for_customer keys c = .ok kname) :
    (encrypt_row keys encFn row fields).map (fun p => p.2)
      = .ok ((fields.filter (fun f => rhas row f && (rget row f).truthy)).length) := by
  obtain ⟨out, hout, -, -, -⟩ :=
    encLoop_spec keys encFn row c kname hkey fields (rdel row "customer_id") 0
  rw [encrypt_row_eq_encLoop keys encFn row fields c hcid hc, hout]
  simp [Except.map]

/-- C7 witness: the two-truthy-field row performs exactly two lookups. -/
theorem C7_amended_lookup_per_truthy_field_witness :
    (encrypt_row exKeys exEnc rowTwoSensitive ["acct", "name"]).map (fun p => p.2)
      = .ok 2 :=
  (C7_amended_lookup_per_truthy_field exKeys exEnc rowTwoSensitive ["acct", "name"]
      "c1" "key1" rfl (by decide) rfl).trans (congrArg Except.ok (by decide))

/-! ### Claim C8 -/

/-- C8: given a bank identifier, mapping resolution returns the bank-specific
rule set when a config entry for that bank exists, otherwise falls back to
the configured default rule set, and fails with a configuration error when
the applicable rule set is absent or empty; a resolution failure aborts the
pipeline before any row is built. -/
theorem C8_mapping_resolution (config : Config) (bank_id customer_id : String)
    (file : Bai2File) :
    (∀ b, config.mappings.find? (fun m => m.bank_id = bank_id) = some b →
        (b.mappings ≠ [] → resolve_mappings config bank_id = .ok b.mappings)
        ∧ (b.mappings = [] →
            resolve_mappings config bank_id = .error (.noMappings bank_id)))
    ∧ (config.mappings.find? (fun m => m.bank_id = bank_id) = none →
        (config.bank_id_default_typecodes ≠ [] →
            resolve_mappings config bank_id = .ok config.bank_id_default_typecodes)
        ∧ (config.bank_id_default_typecodes = [] →
            resolve_mappings config bank_id = .error (.noMappings bank_id)))
    ∧ (∀ e, resolve_mappings config bank_id = .error e →
        pipeline_rows config bank_id customer_id file = .error e) := by
  refine ⟨?_, ?_, ?_⟩
  · intro b hb
    constructor
    · intro hne
      unfold resolve_mappings
      rw [hb]
      dsimp only
      rw [if_neg (by simpa [List.isEmpty_iff] using hne)]
    · intro he
      unfold resolve_mappings
      rw [hb]
      dsimp only
      rw [if_pos (by simpa [List.isEmpty_iff] using he)]
  · intro hn
    constructor
    · intro hne
      unfold resolve_mappings
      rw [hn]
      dsimp only
      rw [if_neg (by simpa [List.isEmpty_iff] using hne)]
    · intro he
      unfold resolve_mappings
      rw [hn]
      dsimp only
      rw [if_pos (by simpa [List.isEmpty_iff] using he)]
  · intro e he
    unfold pipeline_rows
    rw [he]
    rfl

/-- C8 witness: bank `XYZ` has no entry and no defaults are configured, so
resolution and the pipeline fail; bank `CITI` has its own rule set, which is
returned. -/
theorem C8_mapping_resolution_witness :
    resolve_mappings cfgNoRules "XYZ" = .error (.noMappings "XYZ")
    ∧ pipeline_rows cfgNoRules "XYZ" "cust" fileWithTx = .error (.noMappings "XYZ")
    ∧ resolve_mappings cfgCiti "CITI" = .ok [amtRule475] := by
  have h1 := ((C8_mapping_resolution cfgNoRules "XYZ" "cust" fileWithTx).2.1 rfl).2 rfl
  have h2 := (C8_mapping_resolution cfgNoRules "XYZ" "cust" fileWithTx).2.2 _ h1
  have h3 := ((C8_mapping_resolution cfgCiti "CITI" "cust" fileWithTx).1
      ⟨"CITI", [amtRule475]⟩ rfl).1 (by decide)
  exact ⟨h1, h2, h3⟩

/-! ### Claim C9 -/

/-- C9 counterexample: the claim says the schema catalog raises a
`ConfigError` for an unrecognized table name.  For the unrecognized name
`"widgets"`, `get_schema_for_table` (from `src/main.py`) returns normally
with just the common column list, where the spec-described catalog
(`get_schema_for_table_spec`) fails — the implementation does not raise. -/
theorem C9_counterexample :
    get_schema_for_table cfgVal "widgets" = cfgVal.common_fields_schema
    ∧ get_schema_for_table_spec cfgVal "widgets" = .error (.unknownTable "widgets") :=
  ⟨rfl, rfl⟩

/-- C9 (amended): `get_schema_for_table` returns the common column list
concatenated with the table-specific list for the two recognized destination
tables, and for any other table name returns the common column list alone —
it does not raise. -/
theorem C9_amended_schema_for_table (config : Config) (name : String) :
    (name = "balance" →
        get_schema_for_table config name
          = config.common_fields_schema ++ config.balance_table_schema)
    ∧ (name = "transactions" →
        get_schema_for_table config name
          = config.common_fields_schema ++ config.transactions_table_schema)
    ∧ (name ≠ "balance" → name ≠ "transactions" →
        get_schema_for_table config name = config.common_fields_schema) := by
  refine ⟨?_, ?_, ?_⟩
  · rintro rfl; rfl
  · rintro rfl; rfl
  · intro h1 h2
    unfold get_schema_for_table
    rw [if_neg h1, if_neg h2]
    exact List.append_nil _

/-- C9 witness: the unrecognized table name `"widgets"` yields exactly the
common column list. -/
theorem C9_amended_schema_for_table_witness :
    get_schema_for_table cfgVal "widgets" = cfgVal.common_fields_schema :=
  (C9_amended_schema_for_table cfgVal "widgets").2.2 (by decide) (by decide)

end BaiPipeline
